import Mathlib

/-!
Verification development for the SUMO_Emissions repository
(`sumo_project/emissions.py`, `sumo_project/SUMOFactory.py`).

The Python sources are shallowly embedded: pure computations become Lean
functions over `ℚ` (the simulator's floating-point readings are modelled as
exact rationals), the per-step mutation of an `Area` becomes a function
`Area → Area`, and the step loop becomes a fold over per-step vehicle lists.
The modules `model.py`, `actions.py` and `config.py` are imported by
`emissions.py` but are not part of the sources; the definitions that come
from them are modelled from the specification and say so in their doc
comments.
-/

namespace SumoEmissions

/-- Axis-aligned rectangle.  In `emissions.py` (`init_grid`, line 23) a cell
is the 4-corner tuple `((xmin,ymin),(xmin,ymax),(xmax,ymax),(xmax,ymin))`;
we record the two extreme corners, which carry the same information. -/
structure Rect where
  xmin : ℚ
  ymin : ℚ
  xmax : ℚ
  ymax : ℚ
deriving Repr, DecidableEq

/-- Modelled from the spec: `Area.__contains__` lives in the absent
`model.py`; the spec fixes "point-in-polygon test using closed boundary
semantics — a vehicle exactly on the boundary counts as inside". -/
def Rect.containsPoint (r : Rect) (p : ℚ × ℚ) : Bool :=
  decide (r.xmin ≤ p.1) && decide (p.1 ≤ r.xmax) &&
  decide (r.ymin ≤ p.2) && decide (p.2 ≤ r.ymax)

/-- Strict interior membership, used to state "no two cells overlap on
positive area": two closed cells sharing only a boundary edge have no
common interior point. -/
def Rect.interiorContains (r : Rect) (p : ℚ × ℚ) : Bool :=
  decide (r.xmin < p.1) && decide (p.1 < r.xmax) &&
  decide (r.ymin < p.2) && decide (p.2 < r.ymax)

/-- One signal-timing phase (`model.py` `Phase`, whose four fields are the
ones `parse_phase` (emissions.py lines 41-50) extracts:
duration, minDuration, maxDuration, phaseDef). -/
structure Phase where
  duration : ℚ
  minDuration : ℚ
  maxDuration : ℚ
  phaseDef : String
deriving Repr, DecidableEq

/-- One signal program (`model.py` `Logic`): an ordered list of phases. -/
structure Logic where
  logic_id : ℕ
  phases : List Phase
deriving Repr, DecidableEq

/-- A traffic-light controller (`model.py` `TrafficLight`).  `logics` mirrors
the controller's current programs on the simulator side; `initial_logics`
is the copy taken when the network index was built, which
`reverse_actions` restores (spec §4.5 step 3). -/
structure TrafficLight where
  tl_id : ℕ
  logics : List Logic
  initial_logics : List Logic
deriving Repr, DecidableEq

/-- A road lane (`model.py` `Lane`, built in `get_all_lanes`,
emissions.py lines 32-38).  `initial_max_speed` is recorded before any
modification; `max_speed` mirrors the simulator-side current max speed
(external state mirrored, not owned — spec §3). -/
structure Lane where
  lane_id : ℕ
  initial_max_speed : ℚ
  max_speed : ℚ
deriving Repr, DecidableEq

/-- A per-step vehicle snapshot (`model.py` `Vehicle`, built in
`get_all_vehicles`, emissions.py lines 78-85): position and the summed
five-pollutant emission value of `compute_vehicle_emissions`. -/
structure Vehicle where
  veh_id : ℕ
  pos : ℚ × ℚ
  emissions : ℚ
deriving Repr, DecidableEq

/-- A grid cell (`model.py` `Area`).  The name string
`'Area ({},{})'.format(i, j)` is kept as the pair `(i, j)` it is formatted
from.  The three flags are the ones `get_emissions` reads
(`limited_speed`, `tls_adjusted`, `locked`). -/
structure Area where
  name : ℕ × ℕ
  rectangle : Rect
  emissions_by_step : List ℚ
  limited_speed : Bool
  tls_adjusted : Bool
  locked : Bool
  lanes : List Lane
  tls : List TrafficLight
deriving Repr, DecidableEq

/-- The configuration fields of `config.py` that `get_emissions` and `run`
read (emissions.py lines 97-156). -/
structure Config where
  window_size : ℕ
  emissions_threshold : ℚ
  limit_speed_mode : Bool
  adjust_traffic_light_mode : Bool
  lock_area_mode : Bool
  weight_routing_mode : Bool
  speed_rf : ℚ
  trafficLights_duration_rf : ℚ
deriving Repr, DecidableEq

/-- Modelled from the spec: `Area.sum_emissions_into_window` lives in the
absent `model.py`.  Spec §4.4: "Compute the rolling window sum as the sum
of the last `window_size` entries of the sequence (if fewer than
`window_size` entries exist, sum all available — this is a left-truncated
window, not a zero-padded one)."  The last `window_size` entries are the
first `window_size` entries of the reversed sequence. -/
def sum_emissions_into_window (seq : List ℚ) (window_size : ℕ) : ℚ :=
  (seq.reverse.take window_size).sum

/-- Modelled from the spec: `Area.sum_all_emissions` (absent `model.py`),
"a full-run total (sum of the entire sequence)" (spec §4.4). -/
def sum_all_emissions (area : Area) : ℚ :=
  area.emissions_by_step.sum

/-- Modelled from the spec: `actions.limit_speed_into_area` (absent
`actions.py`).  Spec §4.5 step 2a: "for every Lane in the Area, scale its
current maximum speed by the configured reduction factor; ...
set `speed_limited = true`." -/
def limit_speed_into_area (area : Area) (speed_rf : ℚ) : Area :=
  { area with
    lanes := area.lanes.map (fun l => { l with max_speed := l.max_speed * speed_rf }),
    limited_speed := true }

/-- Scale the three duration fields of a phase by `rf` (spec §4.5 step 2b:
"scale each phase's duration (and its min/max bounds) by the configured
reduction factor"). -/
def scalePhase (rf : ℚ) (p : Phase) : Phase :=
  { p with
    duration := p.duration * rf,
    minDuration := p.minDuration * rf,
    maxDuration := p.maxDuration * rf }

/-- Modelled from the spec: `actions.adjust_traffic_light_phase_duration`
(absent `actions.py`).  Spec §4.5 step 2b: scale every phase of every
Logic of every TrafficLight owned by the Area and push the modified
program; set `traffic_lights_adjusted = true`. -/
def adjust_traffic_light_phase_duration (area : Area) (rf : ℚ) : Area :=
  { area with
    tls := area.tls.map (fun t =>
      { t with logics := t.logics.map (fun lg =>
          { lg with phases := lg.phases.map (scalePhase rf) }) }),
    tls_adjusted := true }

/-- Modelled from the spec: `actions.count_vehicles_in_area` (absent
`actions.py`): the number of vehicles whose position falls inside the
Area's rectangle ("the Area currently contains at least one vehicle",
spec §4.5 step 2c; `get_emissions` line 107 tests its truthiness). -/
def count_vehicles_in_area (area : Area) (vehicles : List Vehicle) : ℕ :=
  (vehicles.filter (fun v => area.rectangle.containsPoint v.pos)).length

/-- The near-zero speed used by the modelled locking action
(spec §4.5 step 2c: "reduce all its lanes' speed to a near-zero value"). -/
def near_zero_speed : ℚ := 1 / 10

/-- Modelled from the spec: `actions.lock_area` (absent `actions.py`).
Spec §4.5 step 2c: reduce all lanes' speed to a near-zero value and set
`locked = true` (rerouting of the vehicles inside is a simulator call with
no trace in the Area state). -/
def lock_area_action (area : Area) : Area :=
  { area with
    lanes := area.lanes.map (fun l => { l with max_speed := near_zero_speed }),
    locked := true }

/-- Modelled from the spec: `actions.reverse_actions` (absent
`actions.py`).  Spec §4.5 step 3: "restore each Lane's original recorded
maximum speed, restore each TrafficLight program's original phase
durations, unlock the area — and clear all three flags." -/
def reverse_actions (area : Area) : Area :=
  { area with
    lanes := area.lanes.map (fun l => { l with max_speed := l.initial_max_speed }),
    tls := area.tls.map (fun t => { t with logics := t.initial_logics }),
    limited_speed := false,
    tls_adjusted := false,
    locked := false }

/-- The per-step emission attributed to an area: the sum of the emissions
of the vehicles whose position lies in the area's rectangle
(`get_emissions`, emissions.py lines 90-93). -/
def area_step_emission (area : Area) (vehicles : List Vehicle) : ℚ :=
  ((vehicles.filter (fun v => area.rectangle.containsPoint v.pos)).map
    (fun v => v.emissions)).sum

/-- Lines 99-104 of `get_emissions`: `if config.limit_speed_mode and not
area.limited_speed:` apply the speed limit, and — nested inside that
branch, after the speed-limit call — `if config.adjust_traffic_light_mode
and not area.tls_adjusted:` adjust the traffic lights. -/
def speed_stage (config : Config) (area : Area) : Area :=
  if config.limit_speed_mode && !area.limited_speed then
    let a := limit_speed_into_area area config.speed_rf
    if config.adjust_traffic_light_mode && !a.tls_adjusted then
      adjust_traffic_light_phase_duration a config.trafficLights_duration_rf
    else a
  else area

/-- Lines 106-109 of `get_emissions`: `if config.lock_area_mode and not
area.locked:` and `if actions.count_vehicles_in_area(area):` (truthiness
of the count) lock the area. -/
def lock_stage (config : Config) (vehicles : List Vehicle) (area : Area) : Area :=
  if config.lock_area_mode && !area.locked &&
      decide (count_vehicles_in_area area vehicles ≠ 0) then
    lock_area_action area
  else area

/-- The body of `get_emissions` for one area (emissions.py lines 89-115):
append the step's emission sum to `emissions_by_step` (line 95), compare
the windowed sum with the threshold (line 97, a `>=` comparison), and
either run the activation cascade (speed limit with the traffic-light
adjustment nested inside it, then locking) or reverse every action
(line 115). -/
def get_emissions_area (config : Config) (vehicles : List Vehicle)
    (area : Area) : Area :=
  let a := { area with
    emissions_by_step := area.emissions_by_step ++ [area_step_emission area vehicles] }
  if config.emissions_threshold ≤
      sum_emissions_into_window a.emissions_by_step config.window_size then
    lock_stage config vehicles (speed_stage config a)
  else reverse_actions a

/-- `get_emissions` over the whole grid (emissions.py line 89: the areas
are processed independently). -/
def get_emissions (config : Config) (vehicles : List Vehicle)
    (grid : List Area) : List Area :=
  grid.map (get_emissions_area config vehicles)

/-- The per-step policy step relation iterated over a run: fold
`get_emissions_area` over the per-step vehicle lists (the `while` loop of
`run`, emissions.py lines 134-143, restricted to one area). -/
def policyRun (config : Config) (area : Area) (steps : List (List Vehicle)) : Area :=
  steps.foldl (fun a vs => get_emissions_area config vs a) area

/-- An area as constructed at grid-building time: fresh flags, empty
emission history (`model.py` `Area.__init__` as the spec describes the
lifecycle: "created once during grid construction", flags start false). -/
def mkArea (name : ℕ × ℕ) (r : Rect) : Area :=
  { name := name, rectangle := r, emissions_by_step := [],
    limited_speed := false, tls_adjusted := false, locked := false,
    lanes := [], tls := [] }

/-- `init_grid` (emissions.py lines 16-29), translated exactly: the cell
width and height are `simulation_bounds[1][0] / areas_number` and
`simulation_bounds[1][1] / areas_number` — the MAX corner divided by `N`;
the min corner `simulation_bounds[0]` is never read — and cell `(i, j)`
spans `[i*width, (i+1)*width] × [j*height, (j+1)*height]`. -/
def init_grid (simulation_bounds : (ℚ × ℚ) × (ℚ × ℚ)) (areas_number : ℕ) :
    List Area :=
  let width := simulation_bounds.2.1 / areas_number
  let height := simulation_bounds.2.2 / areas_number
  (List.range areas_number).flatMap (fun i =>
    (List.range areas_number).map (fun j =>
      mkArea (i, j) ⟨i * width, j * height, (i + 1) * width, (j + 1) * height⟩))

/-- The world rectangle described by the simulation bounds
`((xmin, ymin), (xmax, ymax))` (the value `traci.simulation.getNetBoundary`
returns, passed to `init_grid` at emissions.py line 126). -/
def world_rect (simulation_bounds : (ℚ × ℚ) × (ℚ × ℚ)) : Rect :=
  ⟨simulation_bounds.1.1, simulation_bounds.1.2,
   simulation_bounds.2.1, simulation_bounds.2.2⟩

/-! ### SUMOFactory.py -/

/-- A lane as the simulator exposes it to `SUMOFactory.py`: identifier,
polyline shape (`traci.lane.getShape`), current max speed. -/
structure SimLane where
  lane_id : ℕ
  shape : List (ℚ × ℚ)
  max_speed : ℚ
deriving Repr, DecidableEq

/-- A vehicle as the simulator exposes it, with a flag recording whether
`traci.vehicle.rerouteTraveltime` has been invoked on it. -/
structure SimVehicle where
  veh_id : ℕ
  pos : ℚ × ℚ
  rerouted : Bool
deriving Repr, DecidableEq

/-- The simulator state `SUMOFactory.py` reads and writes: the enumerable
lanes (`traci.lane.getIDList`) and vehicles (`traci.vehicle.getIDList`). -/
structure SimState where
  lanes : List SimLane
  vehicles : List SimVehicle
deriving Repr, DecidableEq

/-- `lanes_in_area` (SUMOFactory.py lines 15-19): the ids of the lanes
whose polyline intersects the area's rectangle.  The geometric test
`area.rectangle.intersects(LineString(shape))` is the external `shapely`
library, so it is passed in as the function `intersects`. -/
def lanes_in_area (intersects : List (ℚ × ℚ) → Rect → Bool)
    (sim : SimState) (area_rect : Rect) : List ℕ :=
  ((sim.lanes.filter (fun l => intersects l.shape area_rect)).map
    (fun l => l.lane_id))

/-- `lock_area` (SUMOFactory.py lines 22-28), translated exactly: set the
max speed of every lane yielded by `lanes_in_area` to the constant `30`,
then call `rerouteTraveltime` on every vehicle of
`traci.vehicle.getIDList()` — the whole simulation's vehicle list, with no
position test. -/
def lock_area (intersects : List (ℚ × ℚ) → Rect → Bool)
    (sim : SimState) (area_rect : Rect) : SimState :=
  { lanes := sim.lanes.map (fun l =>
      if intersects l.shape area_rect then { l with max_speed := 30 } else l),
    vehicles := sim.vehicles.map (fun v => { v with rerouted := true }) }

/-! ### parse_phase (emissions.py lines 41-50) -/

/-- The results of the four `parse.search` calls of `parse_phase` on a
phase representation string.  `search` is the external `parse` library:
it returns `None` exactly when its pattern does not occur in the string,
and a match whose first capture is the parsed value when it does; a field
below is `none` exactly when the corresponding pattern is absent. -/
structure PhaseSearch where
  duration : Option ℚ
  minDuration : Option ℚ
  maxDuration : Option ℚ
  phaseDef : Option String
deriving Repr, DecidableEq

/-- `parse_phase` (emissions.py lines 41-50).  A `none` among the three
duration searches makes the subscript `duration[0]` (resp.
`minDuration[0]`, `maxDuration[0]`) at line 50 a `TypeError` on `None`,
modelled as `Except.error`; a `none` `phaseDef` is tolerated and replaced
by the empty string (line 47). -/
def parse_phase (r : PhaseSearch) : Except String Phase :=
  let phaseDef := match r.phaseDef with
    | none => ""
    | some s => s
  match r.duration, r.minDuration, r.maxDuration with
  | some d, some mn, some mx => .ok ⟨d, mn, mx, phaseDef⟩
  | _, _, _ => .error "TypeError: NoneType is not subscriptable"

/-! ### The run entry point (emissions.py lines 118-160) -/

/-- Where, if anywhere, the body of `run`'s `try` block raises: `atStart`
models `traci.start(config.sumo_cmd)` raising (startup failure),
`atStep k` models a failure while executing simulation step `k`
(mid-run connection loss), `noFail` a normal completion. -/
inductive FailPoint where
  | noFail : FailPoint
  | atStart : FailPoint
  | atStep (k : ℕ) : FailPoint
deriving Repr, DecidableEq

/-- The errors observable at the top level of `run`:
`simulationConnection` is the body's own exception;
`unboundLocal` is Python's `UnboundLocalError`, raised when a local
variable is read before any assignment to it has executed. -/
inductive RunError where
  | simulationConnection : RunError
  | unboundLocal : RunError
deriving Repr, DecidableEq

/-- What `run` has done by the time it returns or re-raises. -/
structure RunOutcome where
  connection_closed : Bool
  stats_emitted : Bool
  error : Option RunError
deriving Repr, DecidableEq

/-- The `try` body of `run` (emissions.py lines 120-143) up to the point
where it raises: returns whether the local variable `start` has been
assigned (`start = time.perf_counter()`, line 124, runs AFTER
`traci.start`, line 121) and the body's exception, if any. -/
def run_try_body (fail : FailPoint) : Bool × Option RunError :=
  match fail with
  | .atStart => (false, some .simulationConnection)
  | .atStep _ => (true, some .simulationConnection)
  | .noFail => (true, none)

/-- The `finally` block of `run` (emissions.py lines 145-160):
`traci.close(False)` always runs first; then
`simulation_time = round(time.perf_counter() - start, 2)` reads `start`,
raising `UnboundLocalError` when `start` was never assigned — in that case
the statistics lines 150-160 never execute, and per Python semantics the
exception raised in `finally` replaces the body's exception. -/
def run_finally (start_bound : Bool) (body_error : Option RunError) : RunOutcome :=
  if start_bound then
    { connection_closed := true, stats_emitted := true, error := body_error }
  else
    { connection_closed := true, stats_emitted := false,
      error := some .unboundLocal }

/-- `run` (emissions.py lines 118-160) as `try`-body followed by
`finally`. -/
def run (fail : FailPoint) : RunOutcome :=
  let (start_bound, body_error) := run_try_body fail
  run_finally start_bound body_error

/-! ### The step loop (emissions.py lines 134-143) -/

/-- The `while step < n_steps` loop of `run`, restricted to the state the
claims observe: each iteration runs `get_emissions` on the grid and then,
`if config.weight_routing_mode:`, calls `actions.adjust_edges_weights()`
(emissions.py lines 140-141) — the pair's second component counts those
calls. -/
def run_steps (config : Config) (stepsVehicles : List (List Vehicle))
    (grid : List Area) : List Area × ℕ :=
  stepsVehicles.foldl
    (fun acc vehicles =>
      (get_emissions config vehicles acc.1,
       acc.2 + (if config.weight_routing_mode then 1 else 0)))
    (grid, 0)

/-! ### Basic facts about the policy stages -/

lemma speed_stage_rectangle (c : Config) (a : Area) :
    (speed_stage c a).rectangle = a.rectangle := by
  unfold speed_stage
  split
  · dsimp only
    split <;> rfl
  · rfl

lemma speed_stage_locked (c : Config) (a : Area) :
    (speed_stage c a).locked = a.locked := by
  unfold speed_stage
  split
  · dsimp only
    split <;> rfl
  · rfl

lemma lock_stage_limited_speed (c : Config) (vs : List Vehicle) (a : Area) :
    (lock_stage c vs a).limited_speed = a.limited_speed := by
  unfold lock_stage
  split <;> rfl

lemma lock_stage_tls_adjusted (c : Config) (vs : List Vehicle) (a : Area) :
    (lock_stage c vs a).tls_adjusted = a.tls_adjusted := by
  unfold lock_stage
  split <;> rfl

lemma lock_stage_lanes_of_locked (c : Config) (vs : List Vehicle) (a : Area)
    (h : c.lock_area_mode = false) : lock_stage c vs a = a := by
  unfold lock_stage
  rw [h]
  simp

lemma count_vehicles_congr (a b : Area) (vs : List Vehicle)
    (h : a.rectangle = b.rectangle) :
    count_vehicles_in_area a vs = count_vehicles_in_area b vs := by
  unfold count_vehicles_in_area
  rw [h]

lemma run_steps_weight_calls_aux (config : Config) :
    ∀ (steps : List (List Vehicle)) (grid : List Area) (n : ℕ),
      (steps.foldl
        (fun acc vehicles =>
          (get_emissions config vehicles acc.1,
           acc.2 + (if config.weight_routing_mode then 1 else 0)))
        (grid, n)).2
      = n + (if config.weight_routing_mode then steps.length else 0) := by
  intro steps
  induction steps with
  | nil => intro grid n; split <;> simp
  | cons vs rest ih =>
      intro grid n
      rw [List.foldl_cons, ih]
      split <;> ((try simp only [List.length_cons]); (try omega))

/-- C10: when `weight_routing_mode` is enabled, the step loop invokes the
edge-weight adjustment on every simulation step, unconditionally —
the number of `adjust_edges_weights` calls equals the number of steps,
independent of the grid, the vehicles, the windowed sums or any flag
(and it is zero when the mode is disabled). -/
theorem C10_edge_weight_unconditional (config : Config)
    (stepsVehicles : List (List Vehicle)) (grid : List Area) :
    (run_steps config stepsVehicles grid).2
      = if config.weight_routing_mode then stepsVehicles.length else 0 := by
  unfold run_steps
  rw [run_steps_weight_calls_aux]
  omega

/-- C9: `parse_phase` is partial — when any of the three duration
patterns is absent (its `search` returned `None`) the subscript on `None`
raises, while an absent `phaseDef` pattern is tolerated and yields the
empty string as the phase definition. -/
theorem C9_parse_phase_partiality (r : PhaseSearch) :
    ((r.duration = none ∨ r.minDuration = none ∨ r.maxDuration = none) →
      parse_phase r = .error "TypeError: NoneType is not subscriptable")
    ∧ ((r.duration ≠ none ∧ r.minDuration ≠ none ∧ r.maxDuration ≠ none ∧
        r.phaseDef = none) →
      parse_phase r =
        .ok ⟨r.duration.getD 0, r.minDuration.getD 0, r.maxDuration.getD 0, ""⟩) := by
  obtain ⟨d, mn, mx, pd⟩ := r
  cases d <;> cases mn <;> cases mx <;> cases pd <;>
    simp [parse_phase]

/-- Witness for C9: a representation missing `minDuration` raises; one
with all three durations but no `phaseDef` parses with the empty phase
definition. -/
theorem C9_parse_phase_partiality_witness :
    parse_phase ⟨some 4, none, some 9, some "GrGr"⟩
      = .error "TypeError: NoneType is not subscriptable"
    ∧ parse_phase ⟨some 4, some 2, some 9, none⟩ = .ok ⟨4, 2, 9, ""⟩ :=
  ⟨(C9_parse_phase_partiality ⟨some 4, none, some 9, some "GrGr"⟩).1
      (Or.inr (Or.inl rfl)),
   by
    have h := (C9_parse_phase_partiality ⟨some 4, some 2, some 9, none⟩).2
      (by simp)
    simpa using h⟩

/-- C8: teardown behaviour of `run` on each exit path.  On normal
completion and on a mid-run failure the connection is closed and the
final statistics are emitted before the error surfaces; but when
`traci.start` itself fails, the `finally` block reads the local variable
`start` — assigned only at line 124, after `traci.start` — raising
`UnboundLocalError` before the statistics lines run: the statistics are
NOT emitted on that exit path, and the surfaced error is the
`UnboundLocalError`, not the original connection failure. -/
theorem C8_run_teardown :
    run .noFail =
      { connection_closed := true, stats_emitted := true, error := none }
    ∧ (∀ k, run (.atStep k) =
      { connection_closed := true, stats_emitted := true,
        error := some .simulationConnection })
    ∧ run .atStart =
      { connection_closed := true, stats_emitted := false,
        error := some .unboundLocal } :=
  ⟨rfl, fun _ => rfl, rfl⟩

lemma lock_area_lanes_pairs (f : List (ℚ × ℚ) → Rect → Bool)
    (lanes : List SimLane) (r : Rect) :
    (lanes.map (fun l =>
        if f l.shape r then { l with max_speed := 30 } else l)).map
      (fun l => (l.lane_id, l.max_speed))
    = lanes.map (fun l => (l.lane_id, if f l.shape r then (30 : ℚ) else l.max_speed)) := by
  induction lanes with
  | nil => rfl
  | cons l rest ih =>
      simp only [List.map_cons, ih]
      split <;> rfl

/-- C7 counterexample: `lock_area` does not reroute "exactly the vehicles
currently inside" the area — a vehicle at `(100, 100)`, strictly outside
the area rectangle `[0,1] × [0,1]`, is rerouted all the same, because the
second loop of `lock_area` runs over `traci.vehicle.getIDList()` with no
position test. -/
theorem C7_lock_area_counterexample :
    (lock_area (fun _ _ => false)
        { lanes := [], vehicles := [⟨0, (100, 100), false⟩] }
        ⟨0, 0, 1, 1⟩).vehicles
      = [⟨0, (100, 100), true⟩]
    ∧ Rect.containsPoint ⟨0, 0, 1, 1⟩ (100, 100) = false := by
  refine ⟨rfl, ?_⟩
  decide

/-- C7 as amended: `lock_area` sets the max speed of exactly the lanes
whose shape intersects the area's rectangle to the constant `30` (not a
near-zero value), leaving the other lanes' speeds unchanged, and invokes
`rerouteTraveltime` on every vehicle of the simulation, regardless of its
position relative to the area. -/
theorem C7_lock_area_behaviour (f : List (ℚ × ℚ) → Rect → Bool)
    (sim : SimState) (r : Rect) :
    ((lock_area f sim r).lanes.map (fun l => (l.lane_id, l.max_speed))
      = sim.lanes.map (fun l =>
          (l.lane_id, if f l.shape r then (30 : ℚ) else l.max_speed)))
    ∧ (lanes_in_area f sim r
      = (sim.lanes.filter (fun l => f l.shape r)).map (fun l => l.lane_id))
    ∧ (∀ v, v ∈ sim.vehicles →
        { v with rerouted := true } ∈ (lock_area f sim r).vehicles) := by
  refine ⟨?_, rfl, ?_⟩
  · exact lock_area_lanes_pairs f sim.lanes r
  · intro v hv
    exact List.mem_map_of_mem _ hv

/-- Witness for C7's amended theorem: a one-lane, one-vehicle simulation
where the lane intersects the area; the lane's speed becomes `30` and the
(outside) vehicle is rerouted. -/
theorem C7_lock_area_behaviour_witness :
    (⟨0, (100, 100), false⟩ : SimVehicle) ∈
      ({ lanes := [⟨5, [(0, 0), (1, 1)], 13⟩],
         vehicles := [⟨0, (100, 100), false⟩] } : SimState).vehicles
    ∧ ({ veh_id := 0, pos := (100, 100), rerouted := true } : SimVehicle) ∈
      (lock_area (fun _ _ => true)
        { lanes := [⟨5, [(0, 0), (1, 1)], 13⟩],
          vehicles := [⟨0, (100, 100), false⟩] } ⟨0, 0, 1, 1⟩).vehicles :=
  ⟨List.mem_singleton.mpr rfl,
   (C7_lock_area_behaviour (fun _ _ => true)
      { lanes := [⟨5, [(0, 0), (1, 1)], 13⟩],
        vehicles := [⟨0, (100, 100), false⟩] } ⟨0, 0, 1, 1⟩).2.2
     ⟨0, (100, 100), false⟩ (List.mem_singleton.mpr rfl)⟩

lemma speed_stage_of_mode_off (c : Config) (a : Area)
    (hm : c.limit_speed_mode = false) : speed_stage c a = a := by
  unfold speed_stage
  rw [hm]
  simp

lemma speed_stage_of_limited (c : Config) (a : Area)
    (h : a.limited_speed = true) : speed_stage c a = a := by
  unfold speed_stage
  rw [h]
  simp

lemma speed_stage_of_not_limited (c : Config) (a : Area)
    (hm : c.limit_speed_mode = true) (h : a.limited_speed = false) :
    (speed_stage c a).limited_speed = true
    ∧ (speed_stage c a).lanes
      = a.lanes.map (fun l => { l with max_speed := l.max_speed * c.speed_rf }) := by
  unfold speed_stage
  rw [hm, h]
  simp only [Bool.not_false, Bool.and_self, if_true]
  split <;> exact ⟨rfl, rfl⟩

lemma lock_stage_of_no_vehicles (c : Config) (vs : List Vehicle) (a : Area)
    (h : count_vehicles_in_area a vs = 0) : lock_stage c vs a = a := by
  unfold lock_stage
  rw [h]
  simp

/-- C1: with speed-limiting enabled (and locking disabled, so that the
locking action does not overwrite lane speeds in the same step), the area
is treated as over threshold exactly when the windowed sum — after this
step's emission is appended — is `≥` the threshold: a not-yet-limited
area's flag becomes true iff the windowed sum reaches the threshold, the
activation scales every lane's max speed by `speed_rf`, and an
already-limited area over threshold is not re-activated (lanes
untouched) — the activation happens exactly once, at the crossing
step. -/
theorem C1_speed_limit_activation (config : Config) (vehicles : List Vehicle)
    (area : Area)
    (hmode : config.limit_speed_mode = true)
    (hlock : config.lock_area_mode = false) :
    (area.limited_speed = false →
      ((get_emissions_area config vehicles area).limited_speed = true ↔
        config.emissions_threshold ≤
          sum_emissions_into_window
            (area.emissions_by_step ++ [area_step_emission area vehicles])
            config.window_size))
    ∧ (area.limited_speed = false →
        config.emissions_threshold ≤
          sum_emissions_into_window
            (area.emissions_by_step ++ [area_step_emission area vehicles])
            config.window_size →
        (get_emissions_area config vehicles area).lanes
          = area.lanes.map (fun l => { l with max_speed := l.max_speed * config.speed_rf }))
    ∧ (area.limited_speed = true →
        config.emissions_threshold ≤
          sum_emissions_into_window
            (area.emissions_by_step ++ [area_step_emission area vehicles])
            config.window_size →
        (get_emissions_area config vehicles area).limited_speed = true
        ∧ (get_emissions_area config vehicles area).lanes = area.lanes) := by
  unfold get_emissions_area
  dsimp only
  by_cases hthr : config.emissions_threshold ≤
      sum_emissions_into_window
        (area.emissions_by_step ++ [area_step_emission area vehicles])
        config.window_size
  · rw [if_pos hthr]
    rw [lock_stage_lanes_of_locked _ _ _ hlock]
    refine ⟨?_, ?_, ?_⟩
    · intro hls
      have h := speed_stage_of_not_limited config
        { area with emissions_by_step :=
            area.emissions_by_step ++ [area_step_emission area vehicles] }
        hmode hls
      exact ⟨fun _ => hthr, fun _ => h.1⟩
    · intro hls _
      exact (speed_stage_of_not_limited config
        { area with emissions_by_step :=
            area.emissions_by_step ++ [area_step_emission area vehicles] }
        hmode hls).2
    · intro hls _
      rw [speed_stage_of_limited config
        { area with emissions_by_step :=
            area.emissions_by_step ++ [area_step_emission area vehicles] }
        hls]
      exact ⟨hls, rfl⟩
  · rw [if_neg hthr]
    refine ⟨?_, ?_, ?_⟩
    · intro _
      constructor
      · intro h
        exact absurd h (by simp [reverse_actions])
      · intro h
        exact absurd h hthr
    · intro _ h
      exact absurd h hthr
    · intro _ h
      exact absurd h hthr

/-- Witness for C1: threshold 5, window 2, one lane at speed 13, one
vehicle inside emitting 10 — the windowed sum reaches 10 ≥ 5 at the first
step and the lane's speed is halved. -/
theorem C1_speed_limit_activation_witness :
    (get_emissions_area
        ⟨2, 5, true, false, false, false, 1/2, 1/2⟩
        [⟨0, (1, 1), 10⟩]
        ⟨(0, 0), ⟨0, 0, 10, 10⟩, [], false, false, false, [⟨1, 13, 13⟩], []⟩).lanes
      = [⟨1, 13, 13 / 2⟩] := by
  have h := (C1_speed_limit_activation
      ⟨2, 5, true, false, false, false, 1/2, 1/2⟩
      [⟨0, (1, 1), 10⟩]
      ⟨(0, 0), ⟨0, 0, 10, 10⟩, [], false, false, false, [⟨1, 13, 13⟩], []⟩
      rfl rfl).2.1 rfl
    (by norm_num [sum_emissions_into_window, area_step_emission, Rect.containsPoint])
  rw [h]
  norm_num

/-- C2: at a step where the windowed sum (with this step's emission
appended) is strictly below the threshold, every action on the area is
reversed within that same step: all three flags cleared, every lane's
speed restored to its recorded `initial_max_speed`, every traffic light's
programs restored to `initial_logics` — never a partial reversal. -/
theorem C2_reversal_all_or_nothing (config : Config) (vehicles : List Vehicle)
    (area : Area)
    (h : sum_emissions_into_window
        (area.emissions_by_step ++ [area_step_emission area vehicles])
        config.window_size < config.emissions_threshold) :
    (get_emissions_area config vehicles area).limited_speed = false
    ∧ (get_emissions_area config vehicles area).tls_adjusted = false
    ∧ (get_emissions_area config vehicles area).locked = false
    ∧ (get_emissions_area config vehicles area).lanes
      = area.lanes.map (fun l => { l with max_speed := l.initial_max_speed })
    ∧ (get_emissions_area config vehicles area).tls
      = area.tls.map (fun t => { t with logics := t.initial_logics })
    ∧ (get_emissions_area config vehicles area).emissions_by_step
      = area.emissions_by_step ++ [area_step_emission area vehicles] := by
  unfold get_emissions_area
  dsimp only
  rw [if_neg (not_le.mpr h)]
  exact ⟨rfl, rfl, rfl, rfl, rfl, rfl⟩

/-- Witness for C2: threshold 5, the only vehicle emits 1, so the area —
speed-limited, TL-adjusted and locked, with a modified lane and a
modified program — is fully reversed in the same step. -/
theorem C2_reversal_all_or_nothing_witness :
    (get_emissions_area
        ⟨2, 5, true, true, true, false, 1/2, 1/2⟩
        [⟨0, (1, 1), 1⟩]
        ⟨(0, 0), ⟨0, 0, 10, 10⟩, [3, 1], true, true, true, [⟨1, 13, 6⟩],
          [⟨7, [⟨0, [⟨15, 15, 15, "GrGr"⟩]⟩], [⟨0, [⟨30, 30, 30, "GrGr"⟩]⟩]⟩]⟩).limited_speed
      = false
    ∧ (get_emissions_area
        ⟨2, 5, true, true, true, false, 1/2, 1/2⟩
        [⟨0, (1, 1), 1⟩]
        ⟨(0, 0), ⟨0, 0, 10, 10⟩, [3, 1], true, true, true, [⟨1, 13, 6⟩],
          [⟨7, [⟨0, [⟨15, 15, 15, "GrGr"⟩]⟩], [⟨0, [⟨30, 30, 30, "GrGr"⟩]⟩]⟩]⟩).lanes
      = [⟨1, 13, 13⟩] := by
  have h := C2_reversal_all_or_nothing
      ⟨2, 5, true, true, true, false, 1/2, 1/2⟩
      [⟨0, (1, 1), 1⟩]
      ⟨(0, 0), ⟨0, 0, 10, 10⟩, [3, 1], true, true, true, [⟨1, 13, 6⟩],
        [⟨7, [⟨0, [⟨15, 15, 15, "GrGr"⟩]⟩], [⟨0, [⟨30, 30, 30, "GrGr"⟩]⟩]⟩]⟩
      (by norm_num [sum_emissions_into_window, area_step_emission, Rect.containsPoint])
  refine ⟨h.1, ?_⟩
  rw [h.2.2.2.1]
  rfl

/-- C6: the locking occupancy guard — at a step where the area contains
zero vehicles, the `locked` flag never transitions to true, whatever the
windowed sum, the threshold and the enabled modes. -/
theorem C6_lock_occupancy_guard (config : Config) (vehicles : List Vehicle)
    (area : Area)
    (h : count_vehicles_in_area area vehicles = 0) :
    (get_emissions_area config vehicles area).locked = true →
      area.locked = true := by
  unfold get_emissions_area
  dsimp only
  split
  · have hrect : (speed_stage config
        { area with emissions_by_step :=
            area.emissions_by_step ++ [area_step_emission area vehicles] }).rectangle
        = area.rectangle := by
      rw [speed_stage_rectangle]
    have hcount : count_vehicles_in_area
        (speed_stage config
          { area with emissions_by_step :=
              area.emissions_by_step ++ [area_step_emission area vehicles] })
        vehicles = 0 := by
      rw [count_vehicles_congr _ area _ hrect]
      exact h
    rw [lock_stage_of_no_vehicles _ _ _ hcount, speed_stage_locked]
    exact fun hl => hl
  · intro hl
    exact absurd hl (by simp [reverse_actions])

/-- Witness for C6: locking enabled, an over-threshold emission history,
but no vehicle present — the area stays unlocked. -/
theorem C6_lock_occupancy_guard_witness :
    (get_emissions_area
        ⟨2, 5, true, true, true, false, 1/2, 1/2⟩ []
        ⟨(0, 0), ⟨0, 0, 10, 10⟩, [9, 9], false, false, false, [], []⟩).locked
      = false := by
  have h := C6_lock_occupancy_guard
      ⟨2, 5, true, true, true, false, 1/2, 1/2⟩ []
      ⟨(0, 0), ⟨0, 0, 10, 10⟩, [9, 9], false, false, false, [], []⟩
      rfl
  cases hb : (get_emissions_area
      ⟨2, 5, true, true, true, false, 1/2, 1/2⟩ []
      ⟨(0, 0), ⟨0, 0, 10, 10⟩, [9, 9], false, false, false, [], []⟩).locked
  · rfl
  · exact absurd (h hb) (by decide)

lemma speed_stage_gating (c : Config) (a : Area)
    (h : a.tls_adjusted = true → a.limited_speed = true) :
    (speed_stage c a).tls_adjusted = true →
      (speed_stage c a).limited_speed = true := by
  unfold speed_stage
  split
  · dsimp only
    split <;> exact fun _ => rfl
  · exact h

lemma get_emissions_area_gating (config : Config) (vehicles : List Vehicle)
    (area : Area)
    (h : area.tls_adjusted = true → area.limited_speed = true) :
    (get_emissions_area config vehicles area).tls_adjusted = true →
      (get_emissions_area config vehicles area).limited_speed = true := by
  unfold get_emissions_area
  dsimp only
  split
  · rw [lock_stage_tls_adjusted, lock_stage_limited_speed]
    exact speed_stage_gating config _ h
  · intro hl
    exact absurd hl (by simp [reverse_actions])

lemma get_emissions_area_tls_off (config : Config) (vehicles : List Vehicle)
    (area : Area)
    (hm : config.limit_speed_mode = false)
    (h : area.tls_adjusted = false) :
    (get_emissions_area config vehicles area).tls_adjusted = false := by
  unfold get_emissions_area
  dsimp only
  split
  · rw [lock_stage_tls_adjusted, speed_stage_of_mode_off _ _ hm]
    exact h
  · rfl

/-- C3: in every state reachable by the per-step policy step (any initial
state satisfying the gating invariant, any sequence of steps), the
`tls_adjusted` flag is never true while `limited_speed` is false — the
traffic-light adjustment is gated on speed limiting being active; in
particular, with `limit_speed_mode` disabled in configuration and
`adjust_traffic_light_mode` enabled, an area that starts with
`tls_adjusted = false` keeps it false at every step. -/
theorem C3_tl_gated_on_speed_limit (config : Config)
    (steps : List (List Vehicle)) (area : Area)
    (h0 : area.tls_adjusted = true → area.limited_speed = true) :
    ((policyRun config area steps).tls_adjusted = true →
      (policyRun config area steps).limited_speed = true)
    ∧ (config.limit_speed_mode = false →
        config.adjust_traffic_light_mode = true →
        area.tls_adjusted = false →
        (policyRun config area steps).tls_adjusted = false) := by
  induction steps generalizing area with
  | nil => exact ⟨h0, fun _ _ h => h⟩
  | cons vs rest ih =>
      unfold policyRun at ih ⊢
      rw [List.foldl_cons]
      refine ⟨(ih _ (get_emissions_area_gating config vs area h0)).1, ?_⟩
      intro hm ha h
      exact (ih _ (get_emissions_area_gating config vs area h0)).2 hm ha
        (get_emissions_area_tls_off config vs area hm h)

/-- Witness for C3: speed limiting disabled, traffic-light adjustment
enabled, one over-threshold step — the traffic-light flag stays false. -/
theorem C3_tl_gated_on_speed_limit_witness :
    (policyRun ⟨2, 5, false, true, false, false, 1/2, 1/2⟩
        (mkArea (0, 0) ⟨0, 0, 10, 10⟩)
        [[⟨0, (1, 1), 10⟩]]).tls_adjusted = false :=
  (C3_tl_gated_on_speed_limit ⟨2, 5, false, true, false, false, 1/2, 1/2⟩
      [[⟨0, (1, 1), 10⟩]]
      (mkArea (0, 0) ⟨0, 0, 10, 10⟩)
      (fun h => absurd h (by decide))).2 rfl rfl rfl

lemma window_sum_eq_drop (s : List ℚ) (W : ℕ) :
    sum_emissions_into_window s W = (s.drop (s.length - W)).sum := by
  unfold sum_emissions_into_window
  calc (s.reverse.take W).sum
      = ((s.reverse.take W).reverse).sum := (List.sum_reverse _).symm
    _ = (s.rtake W).sum := by rw [List.rtake_eq_reverse_take_reverse]
    _ = (s.drop (s.length - W)).sum := rfl

lemma sum_drop_eq_range_sum (s : List ℚ) :
    ∀ m, (s.drop m).sum = ∑ i in Finset.range (s.length - m), s.getD (m + i) 0 := by
  induction s with
  | nil => intro m; simp
  | cons a t ih =>
      intro m
      cases m with
      | zero =>
          have ih0 := ih 0
          rw [List.drop_zero] at ih0
          rw [List.drop_zero, List.sum_cons, ih0]
          rw [List.length_cons, Nat.sub_zero, Nat.sub_zero,
            Finset.sum_range_succ']
          simp [add_comm]
      | succ m' =>
          rw [List.drop_succ_cons, ih m', List.length_cons,
            Nat.succ_sub_succ]
          refine Finset.sum_congr rfl ?_
          intro i _
          rw [show m' + 1 + i = m' + i + 1 by omega]
          rfl

/-- C4: the rolling window sum at step `k` (a sequence of `k + 1`
per-step sums) is the sum of the entries at indices
`max(0, k - W + 1) .. k` — written with truncated subtraction as
`k + 1 - W .. k` — and, when `k < W - 1`, it is the sum of the whole
sequence: the window is left-truncated, not zero-padded. -/
theorem C4_window_sum (s : List ℚ) (k W : ℕ)
    (hs : s.length = k + 1) (hW : 0 < W) :
    sum_emissions_into_window s W = ∑ i in Finset.Icc (k + 1 - W) k, s.getD i 0
    ∧ (k < W - 1 → sum_emissions_into_window s W = s.sum) := by
  constructor
  · rw [window_sum_eq_drop, sum_drop_eq_range_sum, hs,
      ← Nat.Ico_succ_right, Finset.sum_Ico_eq_sum_range]
  · intro h
    rw [window_sum_eq_drop]
    have hz : s.length - W = 0 := by omega
    rw [hz, List.drop_zero]

/-- Witness for C4: the 3-step sequence `[2, 3, 4]` with window 2 sums its
last two entries (`7`), matching the index formula; with window 20 (longer
than the sequence) it sums everything (`9`). -/
theorem C4_window_sum_witness :
    ([2, 3, 4] : List ℚ).length = 2 + 1
    ∧ sum_emissions_into_window [2, 3, 4] 2 = (7 : ℚ)
    ∧ sum_emissions_into_window ([2, 3, 4] : List ℚ) 2
        = ∑ i in Finset.Icc (2 + 1 - 2) 2, ([2, 3, 4] : List ℚ).getD i 0
    ∧ sum_emissions_into_window ([2, 3, 4] : List ℚ) 20
        = ([2, 3, 4] : List ℚ).sum := by
  refine ⟨rfl, ?_, (C4_window_sum [2, 3, 4] 2 2 rfl (by decide)).1,
    (C4_window_sum [2, 3, 4] 2 20 rfl (by decide)).2 (by decide)⟩
  norm_num [sum_emissions_into_window]

/-- C5 counterexample: `init_grid` ignores the min corner of the bounding
rectangle.  For the world rectangle with corners `(1,1)` and `(2,2)` and
`N = 1`, the single cell is `[0,2] × [0,2]`: the point `(0,0)` lies in the
cell but not in the world rectangle (the union is not the world
rectangle), and the cell's width is `2`, not `world_width / N = 1`. -/
theorem C5_init_grid_counterexample :
    ((init_grid ((1, 1), (2, 2)) 1).map Area.rectangle = [⟨0, 0, 2, 2⟩])
    ∧ Rect.containsPoint ⟨0, 0, 2, 2⟩ (0, 0) = true
    ∧ Rect.containsPoint (world_rect ((1, 1), (2, 2))) (0, 0) = false
    ∧ (⟨0, 0, 2, 2⟩ : Rect).xmax - (⟨0, 0, 2, 2⟩ : Rect).xmin
      ≠ ((world_rect ((1, 1), (2, 2))).xmax
          - (world_rect ((1, 1), (2, 2))).xmin) / 1 := by
  refine ⟨?_, by decide, by decide, by norm_num [world_rect]⟩
  norm_num [init_grid, mkArea, List.range_succ]

lemma mem_init_grid (b : (ℚ × ℚ) × (ℚ × ℚ)) (N : ℕ) (a : Area) :
    a ∈ init_grid b N ↔ ∃ i, i < N ∧ ∃ j, j < N ∧
      a = mkArea (i, j)
        ⟨i * (b.2.1 / N), j * (b.2.2 / N),
         (i + 1) * (b.2.1 / N), (j + 1) * (b.2.2 / N)⟩ := by
  simp only [init_grid, List.mem_flatMap, List.mem_map, List.mem_range]
  constructor
  · rintro ⟨i, hi, j, hj, rfl⟩
    exact ⟨i, hi, j, hj, rfl⟩
  · rintro ⟨i, hi, j, hj, rfl⟩
    exact ⟨i, hi, j, hj, rfl⟩

lemma containsPoint_iff (r : Rect) (p : ℚ × ℚ) :
    r.containsPoint p = true ↔
      (r.xmin ≤ p.1 ∧ p.1 ≤ r.xmax ∧ r.ymin ≤ p.2 ∧ p.2 ≤ r.ymax) := by
  simp [Rect.containsPoint, and_assoc]

lemma interiorContains_iff (r : Rect) (p : ℚ × ℚ) :
    r.interiorContains p = true ↔
      (r.xmin < p.1 ∧ p.1 < r.xmax ∧ r.ymin < p.2 ∧ p.2 < r.ymax) := by
  simp [Rect.interiorContains, and_assoc]

lemma exists_cell_index (w x : ℚ) (N : ℕ) (hN : 0 < N) (hw : 0 < w)
    (h0 : 0 ≤ x) (hX : x ≤ (N : ℚ) * w) :
    ∃ i : ℕ, i < N ∧ (i : ℚ) * w ≤ x ∧ x ≤ ((i : ℚ) + 1) * w := by
  have hfl : (0 : ℤ) ≤ ⌊x / w⌋ := Int.floor_nonneg.mpr (div_nonneg h0 hw.le)
  have hle : ((⌊x / w⌋ : ℤ) : ℚ) ≤ x / w := Int.floor_le _
  have hlt : x / w < ((⌊x / w⌋ : ℤ) : ℚ) + 1 := Int.lt_floor_add_one _
  have hxw : x / w * w = x := div_mul_cancel₀ x hw.ne'
  by_cases hqN : ⌊x / w⌋.toNat < N
  · refine ⟨⌊x / w⌋.toNat, hqN, ?_, ?_⟩
    · have hcast : ((⌊x / w⌋.toNat : ℕ) : ℚ) = ((⌊x / w⌋ : ℤ) : ℚ) := by
        exact_mod_cast congrArg (fun z : ℤ => (z : ℚ)) (Int.toNat_of_nonneg hfl)
      rw [hcast]
      have h := mul_le_mul_of_nonneg_right hle hw.le
      rwa [hxw] at h
    · have hcast : ((⌊x / w⌋.toNat : ℕ) : ℚ) = ((⌊x / w⌋ : ℤ) : ℚ) := by
        exact_mod_cast congrArg (fun z : ℤ => (z : ℚ)) (Int.toNat_of_nonneg hfl)
      rw [hcast]
      have h := mul_le_mul_of_nonneg_right hlt.le hw.le
      rwa [hxw] at h
  · push_neg at hqN
    have hNint : (N : ℤ) ≤ ⌊x / w⌋ := by omega
    have hNq : ((N : ℕ) : ℚ) ≤ x / w := by
      refine le_trans ?_ hle
      exact_mod_cast hNint
    have hNx : ((N : ℕ) : ℚ) * w ≤ x := by
      have h := mul_le_mul_of_nonneg_right hNq hw.le
      rwa [hxw] at h
    have hx : x = ((N : ℕ) : ℚ) * w := le_antisymm hX hNx
    have hc1 : ((N - 1 : ℕ) : ℚ) = ((N : ℕ) : ℚ) - 1 := by
      rw [Nat.cast_sub (by omega : 1 ≤ N)]
      norm_num
    refine ⟨N - 1, by omega, ?_, ?_⟩
    · rw [hc1, hx]
      nlinarith [hw.le]
    · rw [hc1, hx]
      nlinarith

lemma cell_interval_disjoint (w : ℚ) (hw : 0 < w) (u v : ℕ) (huv : u < v)
    (x : ℚ) (h1 : x < ((u : ℚ) + 1) * w) (h2 : (v : ℚ) * w < x) : False := by
  have hc : ((u : ℚ) + 1) ≤ (v : ℚ) := by exact_mod_cast huv
  nlinarith

lemma init_grid_names (b : (ℚ × ℚ) × (ℚ × ℚ)) (N : ℕ) :
    (init_grid b N).map Area.name = (List.range N).product (List.range N) := by
  simp only [init_grid, List.map_flatMap, List.map_map]
  rfl

/-- C5 as amended: `init_grid` ignores the min corner of the simulation
bounds — for positive max corner `(X, Y)` and `N > 0` it produces exactly
`N²` areas whose closed rectangles tile `[0, X] × [0, Y]` (the rectangle
from the origin to the max corner, not the given world rectangle): their
union is `[0, X] × [0, Y]`, no two distinct areas share an interior
point, each cell is `X/N` wide and `Y/N` high, and the `(row, column)`
derived names are pairwise distinct. -/
theorem C5_init_grid_tiling (b : (ℚ × ℚ) × (ℚ × ℚ)) (N : ℕ)
    (hN : 0 < N) (hx : 0 < b.2.1) (hy : 0 < b.2.2) :
    (init_grid b N).length = N * N
    ∧ (∀ p : ℚ × ℚ,
        (∃ a, a ∈ init_grid b N ∧ a.rectangle.containsPoint p = true) ↔
          (0 ≤ p.1 ∧ p.1 ≤ b.2.1 ∧ 0 ≤ p.2 ∧ p.2 ≤ b.2.2))
    ∧ (∀ a₁, a₁ ∈ init_grid b N → ∀ a₂, a₂ ∈ init_grid b N → a₁ ≠ a₂ →
        ∀ p : ℚ × ℚ, ¬(a₁.rectangle.interiorContains p = true ∧
                       a₂.rectangle.interiorContains p = true))
    ∧ (∀ a, a ∈ init_grid b N →
        a.rectangle.xmax - a.rectangle.xmin = b.2.1 / N
        ∧ a.rectangle.ymax - a.rectangle.ymin = b.2.2 / N)
    ∧ ((init_grid b N).map Area.name).Nodup := by
  have hNQ : (0 : ℚ) < (N : ℚ) := by exact_mod_cast hN
  have hw : 0 < b.2.1 / N := div_pos hx hNQ
  have hh : 0 < b.2.2 / N := div_pos hy hNQ
  have hNw : (N : ℚ) * (b.2.1 / N) = b.2.1 := by
    field_simp
  have hNh : (N : ℚ) * (b.2.2 / N) = b.2.2 := by
    field_simp
  refine ⟨?_, ?_, ?_, ?_, ?_⟩
  · have hlen := congrArg List.length (init_grid_names b N)
    rw [List.length_map] at hlen
    rw [hlen,
      show (List.range N).product (List.range N)
          = (List.range N) ×ˢ (List.range N) from rfl,
      List.length_product, List.length_range]
  · intro p
    constructor
    · rintro ⟨a, ha, hc⟩
      rw [mem_init_grid] at ha
      obtain ⟨i, hi, j, hj, rfl⟩ := ha
      rw [containsPoint_iff] at hc
      dsimp only [mkArea] at hc
      obtain ⟨h1, h2, h3, h4⟩ := hc
      have hi1 : ((i : ℚ) + 1) ≤ (N : ℚ) := by exact_mod_cast hi
      have hj1 : ((j : ℚ) + 1) ≤ (N : ℚ) := by exact_mod_cast hj
      refine ⟨?_, ?_, ?_, ?_⟩
      · exact le_trans (mul_nonneg (Nat.cast_nonneg i) hw.le) h1
      · calc p.1 ≤ ((i : ℚ) + 1) * (b.2.1 / N) := h2
          _ ≤ (N : ℚ) * (b.2.1 / N) := mul_le_mul_of_nonneg_right hi1 hw.le
          _ = b.2.1 := hNw
      · exact le_trans (mul_nonneg (Nat.cast_nonneg j) hh.le) h3
      · calc p.2 ≤ ((j : ℚ) + 1) * (b.2.2 / N) := h4
          _ ≤ (N : ℚ) * (b.2.2 / N) := mul_le_mul_of_nonneg_right hj1 hh.le
          _ = b.2.2 := hNh
    · rintro ⟨h1, h2, h3, h4⟩
      obtain ⟨i, hi, hi1, hi2⟩ :=
        exists_cell_index (b.2.1 / N) p.1 N hN hw h1 (by rw [hNw]; exact h2)
      obtain ⟨j, hj, hj1, hj2⟩ :=
        exists_cell_index (b.2.2 / N) p.2 N hN hh h3 (by rw [hNh]; exact h4)
      refine ⟨mkArea (i, j)
          ⟨i * (b.2.1 / N), j * (b.2.2 / N),
           (i + 1) * (b.2.1 / N), (j + 1) * (b.2.2 / N)⟩,
        (mem_init_grid b N _).mpr ⟨i, hi, j, hj, rfl⟩, ?_⟩
      rw [containsPoint_iff]
      exact ⟨hi1, hi2, hj1, hj2⟩
  · intro a₁ h₁ a₂ h₂ hne p hp
    rw [mem_init_grid] at h₁ h₂
    obtain ⟨i₁, hi₁, j₁, hj₁, rfl⟩ := h₁
    obtain ⟨i₂, hi₂, j₂, hj₂, rfl⟩ := h₂
    obtain ⟨hp₁, hp₂⟩ := hp
    rw [interiorContains_iff] at hp₁ hp₂
    dsimp only [mkArea] at hp₁ hp₂
    obtain ⟨a1, a2, a3, a4⟩ := hp₁
    obtain ⟨c1, c2, c3, c4⟩ := hp₂
    have hij : i₁ ≠ i₂ ∨ j₁ ≠ j₂ := by
      by_contra hcon
      push_neg at hcon
      exact hne (by rw [hcon.1, hcon.2])
    rcases hij with hii | hjj
    · rcases Nat.lt_or_ge i₁ i₂ with hlt | hge
      · exact cell_interval_disjoint _ hw i₁ i₂ hlt p.1 a2 c1
      · have hlt : i₂ < i₁ := by omega
        exact cell_interval_disjoint _ hw i₂ i₁ hlt p.1 c2 a1
    · rcases Nat.lt_or_ge j₁ j₂ with hlt | hge
      · exact cell_interval_disjoint _ hh j₁ j₂ hlt p.2 a4 c3
      · have hlt : j₂ < j₁ := by omega
        exact cell_interval_disjoint _ hh j₂ j₁ hlt p.2 c4 a3
  · intro a ha
    rw [mem_init_grid] at ha
    obtain ⟨i, hi, j, hj, rfl⟩ := ha
    dsimp only [mkArea]
    constructor <;> ring
  · rw [init_grid_names]
    exact List.Nodup.product (List.nodup_range N) (List.nodup_range N)

/-- Witness for the amended C5: a 2×2 grid over the bounds
`((1,1), (2,2))` has 4 cells with pairwise-distinct names. -/
theorem C5_init_grid_tiling_witness :
    (init_grid ((1, 1), (2, 2)) 2).length = 2 * 2
    ∧ ((init_grid ((1, 1), (2, 2)) 2).map Area.name).Nodup := by
  have h := C5_init_grid_tiling ((1, 1), (2, 2)) 2 (by decide)
    (by norm_num) (by norm_num)
  exact ⟨h.1, h.2.2.2.2⟩

end SumoEmissions
